import Mathlib

/-!
Shallow embedding of the booking-site backend (src/server.js): account
signup/signin with bcrypt password hashing and JWT session tokens, an
authentication middleware, and per-owner booking creation and listing.

The persistent store (MongoDB via Mongoose) is modelled as in-memory lists
with explicit state passing; `findOne` becomes `List.find?` in insertion
order, `find(...).sort(...)` becomes filter-then-sort.  The bcryptjs and
jsonwebtoken libraries are dependencies whose code is not part of the
repository; they are modelled from the spec (section 4.2 Authenticator),
see the doc comments on `hashPassword`, `verifyPassword`, `jwtSign` and
`jwtVerify`.
-/

namespace BookingSite

/-- A bcrypt password hash, modelled from the spec:
`hashPassword(plaintext) → hash` is a salted hash whose verification routine
compares a plaintext against the hash (bcryptjs is a library dependency, not
in the repository).  The model records the random salt and keeps the
plaintext as the digest: one-wayness is not representable in a computable
model and no claim depends on it, while verification semantics
(`bcrypt.compare`) and salt-dependence of the output are preserved. -/
structure PwHash where
  salt : Nat
  digest : String
deriving DecidableEq, Repr

/-- Modelled from the spec: `bcrypt.hash(password, 10)` with the random salt
made an explicit argument. -/
def hashPassword (salt : Nat) (plaintext : String) : PwHash :=
  ⟨salt, plaintext⟩

/-- Modelled from the spec: `bcrypt.compare(plaintext, hash)` — true exactly
when the plaintext is the one the hash was produced from (with its recorded
salt). -/
def verifyPassword (plaintext : String) (h : PwHash) : Bool :=
  h.digest == plaintext

/-- An account record as stored in the user collection (userSchema in
src/server.js): display name, email (unique), bcrypt password hash, plus the
Mongo-generated `_id` modelled as a `Nat`. -/
structure UserR where
  id : Nat
  accountName : String
  email : String
  password : PwHash
deriving DecidableEq, Repr

/-- A booking record as stored in the booking collection (bookingSchema in
src/server.js): date, time and service strings plus the owning account's id. -/
structure BookingR where
  id : Nat
  date : String
  time : String
  service : String
  userId : Nat
deriving DecidableEq, Repr

/-- The persistent store: the user collection and the booking collection,
in insertion order. -/
structure Store where
  users : List UserR
  bookings : List BookingR
deriving DecidableEq, Repr

/-- The identity fields embedded in a session token
(`jwt.sign({ userId, email, accountName }, ...)` in POST /signin). -/
structure TokenPayload where
  userId : Nat
  email : String
  accountName : String
deriving DecidableEq, Repr

/-- Modelled from the spec: a presented JWT, as seen by `jwt.verify`
(jsonwebtoken is a library dependency, not in the repository).  A token
string either fails to parse (`malformed`) or carries a payload, an absolute
expiry in seconds, and a signature value. -/
inductive Jwt where
  | malformed (raw : String)
  | signed (payload : TokenPayload) (exp : Nat) (sig : Nat)
deriving DecidableEq, Repr

/-- Modelled from the spec: the symmetric signature over the signed content.
Only its defining property matters: a token's signature is valid iff it
equals `mac secret payload exp`; a token signed under a different secret or
with altered content fails verification. -/
def mac (secret : Nat) (p : TokenPayload) (exp : Nat) : Nat :=
  Nat.pair secret (Nat.pair exp (Nat.pair p.userId (p.email.length + p.accountName.length)))

/-- Modelled from the spec: `jwt.sign(payload, secret, { expiresIn: '1h' })`
issued at time `now` (seconds) — a signed token whose absolute expiry is
exactly one hour (3600 s) after issuance. -/
def jwtSign (secret : Nat) (p : TokenPayload) (now : Nat) : Jwt :=
  .signed p (now + 3600) (mac secret p (now + 3600))

/-- Modelled from the spec: `jwt.verify(token, secret)` at current time `now`
(seconds) — rejects a malformed token, a bad signature, or an expired token
(jsonwebtoken raises TokenExpiredError when `exp <= now`, i.e. a token is
accepted exactly while `now < exp`); all failures are the one `none` value,
as the caller cannot distinguish them. -/
def jwtVerify (secret now : Nat) : Jwt → Option TokenPayload
  | .malformed _ => none
  | .signed p exp sig =>
      if sig = mac secret p exp then
        if now < exp then some p else none
      else none

/-- The expiry carried by a token (0 for a malformed one). -/
def tokenExp : Jwt → Nat
  | .malformed _ => 0
  | .signed _ exp _ => exp

/-- The payload carried by a token. -/
def tokenPayload : Jwt → Option TokenPayload
  | .malformed _ => none
  | .signed p _ _ => some p

/-- JavaScript `header.split(' ')` on a header modelled as a list of
characters: split on every single space, keeping empty components, always
returning at least one component. -/
def splitSpace : List Char → List (List Char)
  | [] => [[]]
  | c :: rest =>
      match splitSpace rest with
      | [] => [[]]
      | w :: ws => if c = ' ' then [] :: w :: ws else (c :: w) :: ws

/-- Token extraction in authenticateToken (src/server.js):
`const token = authHeader && authHeader.split(' ')[1]` followed by
`if (token == null)`.  JS semantics: a missing header (`undefined`) fails the
`== null` check, as does a header with no second space-separated component
(`split(' ')[1]` is `undefined`); an empty-string header is falsy, so `&&`
yields the empty string itself, which is `!= null` and proceeds as a present
token. -/
def extractToken : Option (List Char) → Option (List Char)
  | none => none
  | some h => if h = [] then some [] else (splitSpace h).get? 1

/-- Outcome of the authentication middleware: an early JSON error response,
or the request proceeding with the token payload bound to `req.user`. -/
inductive AuthOutcome where
  | reject (status : Nat) (message : String)
  | proceed (payload : TokenPayload)
deriving DecidableEq, Repr

/-- The authenticateToken middleware (src/server.js).  `decode` is the JWT
wire format: it maps the extracted token string to the `Jwt` that
`jwt.verify` sees. -/
def authenticateToken (decode : List Char → Jwt) (secret now : Nat)
    (header : Option (List Char)) : AuthOutcome :=
  match extractToken header with
  | none => .reject 401 "Authentication token required."
  | some t =>
      match jwtVerify secret now (decode t) with
      | none => .reject 403 "Invalid or expired token."
      | some p => .proceed p

/-- A JSON response body, one constructor per body shape the handlers emit. -/
inductive Body where
  | msg (message : String)
  | msgUserId (message : String) (userId : Nat)
  | msgToken (message : String) (token : Jwt)
  | msgBooking (message : String) (booking : BookingR)
  | bookingList (bs : List BookingR)
  | nameOnly (accountName : String)
deriving DecidableEq, Repr

/-- An HTTP response: status code and JSON body. -/
structure Response where
  status : Nat
  body : Body
deriving DecidableEq, Repr

/-- A POST /signup request body; each field may be absent (`undefined`). -/
structure SignupBody where
  accountName : Option String
  email : Option String
  password : Option String
deriving DecidableEq, Repr

/-- `User.findOne({ email })` on the user collection: first stored record
whose email equals the query value, in insertion order.  When the request
body lacks the email field, the query value is `undefined`, which the Mongo
driver serializes as `null` by default; no stored record matches it since
every stored record has a string email (required field), so the lookup
returns nothing. -/
def findOneByEmail (users : List UserR) (email : Option String) : Option UserR :=
  match email with
  | none => none
  | some e => users.find? (fun u => u.email == e)

/-- The POST /signup handler (src/server.js).  `nextId` is the `_id` Mongo
would generate and `salt` the random salt bcrypt would draw; both are
explicit arguments of the model.  Order follows the source: duplicate-email
check first, then `bcrypt.hash` (which throws on a missing password, caught
as 500), then `User.create` (whose required-field validation throws on a
missing accountName or email, caught as 500). -/
def signup (st : Store) (nextId salt : Nat) (b : SignupBody) : Response × Store :=
  match findOneByEmail st.users b.email with
  | some _ => (⟨409, .msg "User already exists with this email."⟩, st)
  | none =>
      match b.password with
      | none => (⟨500, .msg "Internal server error."⟩, st)
      | some p =>
          let hashed := hashPassword salt p
          match b.accountName, b.email with
          | some n, some e =>
              (⟨201, .msgUserId "Account created successfully!" nextId⟩,
               ⟨st.users ++ [⟨nextId, n, e, hashed⟩], st.bookings⟩)
          | _, _ => (⟨500, .msg "Internal server error."⟩, st)

/-- The POST /signin handler (src/server.js): look the user up by email
(401 on no match), `bcrypt.compare` the password (`bcrypt.compare` rejects a
missing password with an illegal-arguments error, caught as 500; 401 on
mismatch), then issue a token over the stored account's id, email and
accountName. -/
def signin (st : Store) (secret now : Nat) (email password : Option String) :
    Response :=
  match findOneByEmail st.users email with
  | none => ⟨401, .msg "Invalid credentials."⟩
  | some u =>
      match password with
      | none => ⟨500, .msg "Internal server error."⟩
      | some p =>
          if verifyPassword p u.password then
            ⟨200, .msgToken "Sign-in successful!"
              (jwtSign secret ⟨u.id, u.email, u.accountName⟩ now)⟩
          else ⟨401, .msg "Invalid credentials."⟩

/-- Lexicographic less-or-equal on character sequences, comparing code
points: the string comparison MongoDB applies for each sort key. -/
def lexLeB : List Char → List Char → Bool
  | [], _ => true
  | _ :: _, [] => false
  | c :: cs, d :: ds =>
      if c = d then lexLeB cs ds else decide (c.toNat < d.toNat)

/-- Ascending (date, time) order on bookings, as a Boolean: the order
MongoDB applies for `.sort({ date: 1, time: 1 })` — by date, ties broken by
time, strings compared lexicographically. -/
def bookLeB (a b : BookingR) : Bool :=
  if a.date = b.date then lexLeB a.time.toList b.time.toList
  else lexLeB a.date.toList b.date.toList

/-- The (date, time) order as a relation, for `List.Sorted`. -/
def bookLE (a b : BookingR) : Prop := bookLeB a b = true

instance : DecidableRel bookLE := fun a b =>
  inferInstanceAs (Decidable (bookLeB a b = true))

/-- `Booking.find({ userId }).sort({ date: 1, time: 1 })`: the stored
bookings owned by `owner`, sorted ascending by date then time. -/
def listByOwner (bookings : List BookingR) (owner : Nat) : List BookingR :=
  List.insertionSort bookLE (bookings.filter (fun b => b.userId == owner))

/-- The GET /bookings route (src/server.js): middleware then handler; on
authentication success the response lists the caller's bookings sorted by
(date, time); the store is returned unchanged (the handler only reads). -/
def getBookings (st : Store) (decode : List Char → Jwt) (secret now : Nat)
    (header : Option (List Char)) : Response × Store :=
  match authenticateToken decode secret now header with
  | .reject s m => (⟨s, .msg m⟩, st)
  | .proceed p => (⟨200, .bookingList (listByOwner st.bookings p.userId)⟩, st)

/-- The POST /bookings route (src/server.js): on authentication success,
insert a booking owned by the token's userId unconditionally (500 when a
required field is absent, via Booking.create validation caught by the
handler). -/
def postBookings (st : Store) (decode : List Char → Jwt) (secret now nextId : Nat)
    (header : Option (List Char))
    (date time service : Option String) : Response × Store :=
  match authenticateToken decode secret now header with
  | .reject s m => (⟨s, .msg m⟩, st)
  | .proceed p =>
      match date, time, service with
      | some d, some t, some sv =>
          let b : BookingR := ⟨nextId, d, t, sv, p.userId⟩
          (⟨201, .msgBooking "Booking created successfully!" b⟩,
           ⟨st.users, st.bookings ++ [b]⟩)
      | _, _, _ => (⟨500, .msg "Internal server error."⟩, st)

/-- The GET /fetch-account-name route (src/server.js): on authentication
success, answer with the accountName field of the token payload; no store
access at all. -/
def fetchAccountName (st : Store) (decode : List Char → Jwt) (secret now : Nat)
    (header : Option (List Char)) : Response × Store :=
  match authenticateToken decode secret now header with
  | .reject s m => (⟨s, .msg m⟩, st)
  | .proceed p => (⟨200, .nameOnly p.accountName⟩, st)

/-! ### Sample values used by the witnesses -/

/-- A stored account used in concrete witnesses. -/
def sampleUser : UserR := ⟨1, "Alice", "a@x.com", hashPassword 7 "pw1"⟩

/-- The identity fields of `sampleUser` as a token payload. -/
def samplePayload : TokenPayload := ⟨1, "a@x.com", "Alice"⟩

/-- A wire format mapping every token string to a token signed under
secret 5 at time 0 for `samplePayload`. -/
def sampleDecode : List Char → Jwt := fun _ => jwtSign 5 samplePayload 0

/-- A wire format on which every token string fails to parse. -/
def rejectDecode : List Char → Jwt := fun _ => .malformed ""

/-- A store with one account and three bookings, two owned by account 1. -/
def sampleStore : Store :=
  ⟨[sampleUser],
   [⟨0, "2024-01-02", "09:00", "haircut", 1⟩,
    ⟨1, "2024-01-01", "10:00", "wash", 1⟩,
    ⟨2, "2024-01-01", "08:00", "trim", 2⟩]⟩

/-- A well-formed bearer header. -/
def sampleHeader : Option (List Char) := some ("Bearer tok".toList)

/-! ### Helper lemmas -/

theorem lexLeB_refl (x : List Char) : lexLeB x x = true := by
  induction x with
  | nil => rfl
  | cons c cs ih => simp [lexLeB, ih]

theorem lexLeB_total (x y : List Char) : lexLeB x y = true ∨ lexLeB y x = true := by
  induction x generalizing y with
  | nil => exact Or.inl rfl
  | cons c cs ih =>
      cases y with
      | nil => exact Or.inr rfl
      | cons d ds =>
          by_cases hcd : c = d
          · subst hcd
            simpa [lexLeB] using ih ds
          · have hn : c.toNat ≠ d.toNat := fun h =>
              hcd (Char.eq_of_val_eq (UInt32.ext h))
            rcases Nat.lt_or_ge c.toNat d.toNat with hlt | hge
            · exact Or.inl (by simp [lexLeB, hcd, hlt])
            · have hdc : d.toNat < c.toNat := lt_of_le_of_ne hge (Ne.symm hn)
              exact Or.inr (by simp [lexLeB, Ne.symm hcd, hdc])

theorem lexLeB_trans {x y z : List Char} (h₁ : lexLeB x y = true)
    (h₂ : lexLeB y z = true) : lexLeB x z = true := by
  induction x generalizing y z with
  | nil => rfl
  | cons c cs ih =>
      cases y with
      | nil => simp [lexLeB] at h₁
      | cons d ds =>
          cases z with
          | nil => simp [lexLeB] at h₂
          | cons e es =>
              by_cases hcd : c = d
              · subst hcd
                simp only [lexLeB, if_pos rfl] at h₁
                by_cases hde : c = e
                · subst hde
                  simp only [lexLeB, if_pos rfl] at h₂ ⊢
                  exact ih h₁ h₂
                · simpa [lexLeB, hde] using h₂
              · simp only [lexLeB, if_neg hcd, decide_eq_true_eq] at h₁
                by_cases hde : d = e
                · subst hde
                  simp [lexLeB, hcd, h₁]
                · simp only [lexLeB, if_neg hde, decide_eq_true_eq] at h₂
                  have hce : c.toNat < e.toNat := Nat.lt_trans h₁ h₂
                  have hne : c ≠ e := fun h => by
                    subst h; exact Nat.lt_irrefl _ hce
                  simp [lexLeB, hne, hce]

theorem lexLeB_antisymm {x y : List Char} (h₁ : lexLeB x y = true)
    (h₂ : lexLeB y x = true) : x = y := by
  induction x generalizing y with
  | nil =>
      cases y with
      | nil => rfl
      | cons d ds => simp [lexLeB] at h₂
  | cons c cs ih =>
      cases y with
      | nil => simp [lexLeB] at h₁
      | cons d ds =>
          by_cases hcd : c = d
          · subst hcd
            simp only [lexLeB, if_pos rfl] at h₁ h₂
            exact congrArg _ (ih h₁ h₂)
          · simp only [lexLeB, if_neg hcd, decide_eq_true_eq] at h₁
            simp only [lexLeB, if_neg (Ne.symm hcd), decide_eq_true_eq] at h₂
            exact absurd h₂ (Nat.lt_asymm h₁)

theorem string_eq_of_toList_eq {s t : String} (h : s.toList = t.toList) :
    s = t := by
  cases s; cases t; simpa [String.toList] using congrArg String.mk h

instance : IsTotal BookingR bookLE where
  total a b := by
    unfold bookLE bookLeB
    by_cases h : a.date = b.date
    · simpa [h] using lexLeB_total a.time.toList b.time.toList
    · simpa [h, Ne.symm h] using lexLeB_total a.date.toList b.date.toList

instance : IsTrans BookingR bookLE where
  trans a b c h₁ h₂ := by
    unfold bookLE bookLeB at h₁ h₂ ⊢
    by_cases hab : a.date = b.date <;> by_cases hbc : b.date = c.date
    · simp only [if_pos hab] at h₁
      simp only [if_pos hbc] at h₂
      simp only [if_pos (hab.trans hbc)]
      exact lexLeB_trans h₁ h₂
    · simp only [if_neg hbc] at h₂
      have hac : a.date ≠ c.date := fun h => hbc (hab ▸ h)
      simp only [if_neg hac]
      rw [hab]
      exact h₂
    · simp only [if_neg hab] at h₁
      have hac : a.date ≠ c.date := fun h => hab (h.trans hbc.symm)
      simp only [if_neg hac]
      rw [← hbc]
      exact h₁
    · simp only [if_neg hab] at h₁
      simp only [if_neg hbc] at h₂
      by_cases hac : a.date = c.date
      · exfalso
        have : b.date.toList = a.date.toList :=
          lexLeB_antisymm (hac ▸ h₂) h₁
        exact hab (string_eq_of_toList_eq this).symm
      · simp only [if_neg hac]
        exact lexLeB_trans h₁ h₂

theorem splitSpace_ne_nil (s : List Char) : splitSpace s ≠ [] := by
  cases s with
  | nil => simp [splitSpace]
  | cons c cs =>
      unfold splitSpace
      rcases h : splitSpace cs with _ | ⟨w, ws⟩
      · simp
      · dsimp only
        split <;> simp

theorem splitSpace_no_space {s : List Char} (h : ' ' ∉ s) : splitSpace s = [s] := by
  induction s with
  | nil => rfl
  | cons c cs ih =>
      have hc : c ≠ ' ' := fun hc => h (hc ▸ List.mem_cons_self c cs)
      have hcs : ' ' ∉ cs := fun hm => h (List.mem_cons_of_mem c hm)
      unfold splitSpace
      rw [ih hcs]
      simp [hc]

theorem splitSpace_append {w : List Char} (t : List Char) (hw : ' ' ∉ w) :
    splitSpace (w ++ ' ' :: t) = w :: splitSpace t := by
  induction w with
  | nil =>
      obtain ⟨v, vs, hv⟩ := List.exists_cons_of_ne_nil (splitSpace_ne_nil t)
      show splitSpace (' ' :: t) = [] :: splitSpace t
      conv_lhs => rw [splitSpace]
      rw [hv]
      simp
  | cons c cs ih =>
      have hc : c ≠ ' ' := fun hc => hw (hc ▸ List.mem_cons_self c cs)
      have hcs : ' ' ∉ cs := fun hm => hw (List.mem_cons_of_mem c hm)
      show splitSpace (c :: (cs ++ ' ' :: t)) = (c :: cs) :: splitSpace t
      conv_lhs => rw [splitSpace]
      rw [ih hcs]
      simp [hc]

theorem extractToken_word_token {w t : List Char} (hw : ' ' ∉ w) (ht : ' ' ∉ t) :
    extractToken (some (w ++ ' ' :: t)) = some t := by
  have hne : w ++ ' ' :: t ≠ [] := by cases w <;> simp
  show (if w ++ ' ' :: t = [] then some [] else (splitSpace (w ++ ' ' :: t)).get? 1) = some t
  rw [if_neg hne, splitSpace_append t hw, splitSpace_no_space ht]
  rfl

theorem extractToken_no_space {h : List Char} (hne : h ≠ []) (hsp : ' ' ∉ h) :
    extractToken (some h) = none := by
  show (if h = [] then some [] else (splitSpace h).get? 1) = none
  rw [if_neg hne, splitSpace_no_space hsp]
  rfl

theorem findOneByEmail_eq_of_unique {users : List UserR} {u : UserR}
    (hu : u ∈ users) (huniq : ∀ v ∈ users, v.email = u.email → v = u) :
    findOneByEmail users (some u.email) = some u := by
  show users.find? (fun v => v.email == u.email) = some u
  induction users with
  | nil => cases hu
  | cons w ws ih =>
      by_cases hw : w.email = u.email
      · have hwu : w = u := huniq w (List.mem_cons_self w ws) hw
        rw [List.find?_cons_of_pos _ (by simp [hw])]
        rw [hwu]
      · rw [List.find?_cons_of_neg _ (by simp [hw])]
        have hu' : u ∈ ws := by
          rcases List.mem_cons.mp hu with h | h
          · exact absurd (h ▸ rfl) (h ▸ hw)
          · exact h
        exact ih hu' (fun v hv hve => huniq v (List.mem_cons_of_mem w hv) hve)

theorem findOneByEmail_isSome_of_mem {users : List UserR} {u : UserR}
    (hu : u ∈ users) : (findOneByEmail users (some u.email)).isSome := by
  show (users.find? (fun v => v.email == u.email)).isSome
  rw [List.find?_isSome]
  exact ⟨u, hu, by simp⟩

/-! ### Claims -/

/-- C1: for every account and every collection of stored bookings, the
GET /bookings operation executed with a valid token identifying that account
returns exactly the bookings owned by the token's account identifier — never
a booking owned by another account — and the returned sequence is
non-decreasing under lexicographic comparison of the pair (date, time). -/
theorem c1_getBookings_owned_and_sorted
    (st : Store) (decode : List Char → Jwt) (secret now : Nat)
    (header : Option (List Char)) (p : TokenPayload)
    (hauth : authenticateToken decode secret now header = .proceed p) :
    (getBookings st decode secret now header).1 =
      ⟨200, .bookingList (listByOwner st.bookings p.userId)⟩ ∧
    (∀ b ∈ listByOwner st.bookings p.userId, b.userId = p.userId) ∧
    List.Sorted bookLE (listByOwner st.bookings p.userId) := by
  refine ⟨?_, ?_, ?_⟩
  · unfold getBookings
    rw [hauth]
  · intro b hb
    have hmem : b ∈ st.bookings.filter (fun b => b.userId == p.userId) := by
      simpa [listByOwner] using hb
    simpa using (List.mem_filter.mp hmem).2
  · exact List.sorted_insertionSort bookLE _

/-- Witness for C1 at a concrete store, token and header. -/
theorem c1_witness :
    (getBookings sampleStore sampleDecode 5 10 sampleHeader).1 =
      ⟨200, .bookingList (listByOwner sampleStore.bookings samplePayload.userId)⟩ ∧
    (∀ b ∈ listByOwner sampleStore.bookings samplePayload.userId,
      b.userId = samplePayload.userId) ∧
    List.Sorted bookLE (listByOwner sampleStore.bookings samplePayload.userId) :=
  c1_getBookings_owned_and_sorted sampleStore sampleDecode 5 10 sampleHeader
    samplePayload (by decide)

/-- C2: a signup request whose email equals the email of an already-stored
account responds 409 and leaves the account store exactly as it was: no
second record is created and the existing record is not merged or
overwritten. -/
theorem c2_signup_duplicate_email_conflict
    (st : Store) (nextId salt : Nat) (b : SignupBody) (u : UserR)
    (hu : u ∈ st.users) (he : b.email = some u.email) :
    signup st nextId salt b =
      (⟨409, .msg "User already exists with this email."⟩, st) := by
  have hs : (findOneByEmail st.users b.email).isSome := by
    rw [he]
    exact findOneByEmail_isSome_of_mem hu
  obtain ⟨w, hw⟩ := Option.isSome_iff_exists.mp hs
  unfold signup
  rw [hw]

/-- Witness for C2: a second signup with sampleUser's email is rejected with
409 and the store is unchanged. -/
theorem c2_witness :
    signup sampleStore 2 8 ⟨some "Bob", some "a@x.com", some "pw2"⟩ =
      (⟨409, .msg "User already exists with this email."⟩, sampleStore) :=
  c2_signup_duplicate_email_conflict sampleStore 2 8
    ⟨some "Bob", some "a@x.com", some "pw2"⟩ sampleUser (by decide) (by decide)

/-- C3: request authentication is exactly a three-way split: no token
present → 401; token present but failing verification (malformed, bad
signature or expired — all collapsed to the same `none` by `jwtVerify`, so
one identical generic message covers the three causes) → 403; valid token →
the request proceeds with the token's identity fields bound to the request
context. -/
theorem c3_auth_three_way_split
    (decode : List Char → Jwt) (secret now : Nat) (header : Option (List Char)) :
    (extractToken header = none →
      authenticateToken decode secret now header =
        .reject 401 "Authentication token required.") ∧
    (∀ t, extractToken header = some t → jwtVerify secret now (decode t) = none →
      authenticateToken decode secret now header =
        .reject 403 "Invalid or expired token.") ∧
    (∀ t p, extractToken header = some t →
      jwtVerify secret now (decode t) = some p →
      authenticateToken decode secret now header = .proceed p) := by
  refine ⟨?_, ?_, ?_⟩
  · intro h
    unfold authenticateToken
    rw [h]
  · intro t ht hv
    unfold authenticateToken
    simp [ht, hv]
  · intro t p ht hv
    unfold authenticateToken
    simp [ht, hv]

/-- Witness for C3: the three branches at concrete headers — no header,
a present but unparseable token, and a valid token. -/
theorem c3_witness :
    authenticateToken rejectDecode 5 10 none =
      .reject 401 "Authentication token required." ∧
    authenticateToken rejectDecode 5 10 sampleHeader =
      .reject 403 "Invalid or expired token." ∧
    authenticateToken sampleDecode 5 10 sampleHeader = .proceed samplePayload :=
  ⟨(c3_auth_three_way_split rejectDecode 5 10 none).1 (by decide),
   (c3_auth_three_way_split rejectDecode 5 10 sampleHeader).2.1
     ("tok".toList) (by decide) (by decide),
   (c3_auth_three_way_split sampleDecode 5 10 sampleHeader).2.2
     ("tok".toList) samplePayload (by decide) (by decide)⟩

/-- C4: signin with a stored account's email and correct password succeeds
and the issued token's embedded identity fields equal the stored account's
id, email and display name. -/
theorem c4_signin_token_identity
    (st : Store) (secret now : Nat) (u : UserR) (p : String)
    (hu : u ∈ st.users)
    (huniq : ∀ v ∈ st.users, v.email = u.email → v = u)
    (hpw : verifyPassword p u.password = true) :
    signin st secret now (some u.email) (some p) =
      ⟨200, .msgToken "Sign-in successful!"
        (jwtSign secret ⟨u.id, u.email, u.accountName⟩ now)⟩ ∧
    tokenPayload (jwtSign secret ⟨u.id, u.email, u.accountName⟩ now) =
      some ⟨u.id, u.email, u.accountName⟩ := by
  constructor
  · unfold signin
    rw [findOneByEmail_eq_of_unique hu huniq]
    simp [hpw]
  · rfl

/-- Witness for C4 at the sample account and its password. -/
theorem c4_witness :
    signin sampleStore 5 0 (some sampleUser.email) (some "pw1") =
      ⟨200, .msgToken "Sign-in successful!"
        (jwtSign 5 ⟨sampleUser.id, sampleUser.email, sampleUser.accountName⟩ 0)⟩ ∧
    tokenPayload (jwtSign 5 ⟨sampleUser.id, sampleUser.email, sampleUser.accountName⟩ 0) =
      some ⟨sampleUser.id, sampleUser.email, sampleUser.accountName⟩ :=
  c4_signin_token_identity sampleStore 5 0 sampleUser "pw1"
    (by decide) (by decide) (by decide)

/-- C5: signin with an unknown email and signin with a known email but wrong
password both produce the literally identical response — status 401, same
message, same shape — so an observer of the response cannot tell which
failure occurred. -/
theorem c5_signin_failures_indistinguishable
    (st : Store) (secret now : Nat) (email password : Option String) :
    (findOneByEmail st.users email = none →
      signin st secret now email password = ⟨401, .msg "Invalid credentials."⟩) ∧
    (∀ u p, findOneByEmail st.users email = some u → password = some p →
      verifyPassword p u.password = false →
      signin st secret now email password = ⟨401, .msg "Invalid credentials."⟩) := by
  constructor
  · intro h
    unfold signin
    rw [h]
  · intro u p hu hp hv
    unfold signin
    rw [hu, hp]
    simp [hv]

/-- Witness for C5: an unknown email and a wrong password for a known email
produce the same 401 response at concrete inputs. -/
theorem c5_witness :
    signin sampleStore 5 0 (some "nobody@x.com") (some "pw1") =
      ⟨401, .msg "Invalid credentials."⟩ ∧
    signin sampleStore 5 0 (some "a@x.com") (some "wrong") =
      ⟨401, .msg "Invalid credentials."⟩ :=
  ⟨(c5_signin_failures_indistinguishable sampleStore 5 0
      (some "nobody@x.com") (some "pw1")).1 (by decide),
   (c5_signin_failures_indistinguishable sampleStore 5 0
      (some "a@x.com") (some "wrong")).2 sampleUser "wrong"
      (by decide) (by decide) (by decide)⟩

/-- C6: a token issued at time T carries an absolute expiry of exactly
T + 3600 seconds (one hour), verification accepts it at any time strictly
before expiry and rejects it at any time after expiry; in particular a token
issued at T is accepted at T + 59 minutes and rejected at T + 61 minutes. -/
theorem c6_token_lifetime (secret : Nat) (p : TokenPayload) (T : Nat) :
    tokenExp (jwtSign secret p T) = T + 3600 ∧
    (∀ now, now < T + 3600 → jwtVerify secret now (jwtSign secret p T) = some p) ∧
    (∀ now, T + 3600 < now → jwtVerify secret now (jwtSign secret p T) = none) := by
  refine ⟨rfl, ?_, ?_⟩
  · intro now h
    simp [jwtSign, jwtVerify, h]
  · intro now h
    simp [jwtSign, jwtVerify, Nat.lt_asymm h]

/-- Witness for C6: a token issued at T = 0 has expiry 3600, is accepted at
3540 s (T + 59 min) and rejected at 3660 s (T + 61 min). -/
theorem c6_witness :
    tokenExp (jwtSign 5 samplePayload 0) = 3600 ∧
    jwtVerify 5 3540 (jwtSign 5 samplePayload 0) = some samplePayload ∧
    jwtVerify 5 3660 (jwtSign 5 samplePayload 0) = none :=
  ⟨(c6_token_lifetime 5 samplePayload 0).1,
   (c6_token_lifetime 5 samplePayload 0).2.1 3540 (by decide),
   (c6_token_lifetime 5 samplePayload 0).2.2 3660 (by decide)⟩

/-- C7: signup with a fresh email and password p succeeds; afterwards the
account is retrievable by that email, its stored hash verifies p and fails
verification for every plaintext different from p, and hashing the same
plaintext under distinct salts yields distinct hash values. -/
theorem c7_signup_fresh_email
    (st : Store) (nextId salt : Nat) (n e p : String)
    (hfresh : findOneByEmail st.users (some e) = none) :
    (signup st nextId salt ⟨some n, some e, some p⟩).1 =
      ⟨201, .msgUserId "Account created successfully!" nextId⟩ ∧
    findOneByEmail (signup st nextId salt ⟨some n, some e, some p⟩).2.users
      (some e) = some ⟨nextId, n, e, hashPassword salt p⟩ ∧
    verifyPassword p (hashPassword salt p) = true ∧
    (∀ q, q ≠ p → verifyPassword q (hashPassword salt p) = false) ∧
    (∀ s₁ s₂, s₁ ≠ s₂ → hashPassword s₁ p ≠ hashPassword s₂ p) := by
  have hmain : signup st nextId salt ⟨some n, some e, some p⟩ =
      (⟨201, .msgUserId "Account created successfully!" nextId⟩,
       ⟨st.users ++ [⟨nextId, n, e, hashPassword salt p⟩], st.bookings⟩) := by
    unfold signup
    rw [hfresh]
  refine ⟨by rw [hmain], ?_, ?_, ?_, ?_⟩
  · rw [hmain]
    show (st.users ++ [(⟨nextId, n, e, hashPassword salt p⟩ : UserR)]).find?
      (fun v : UserR => v.email == e) =
        some (⟨nextId, n, e, hashPassword salt p⟩ : UserR)
    have hf : List.find? (fun v : UserR => v.email == e) st.users = none := hfresh
    rw [List.find?_append, hf]
    simp [List.find?]
  · simp [verifyPassword, hashPassword]
  · intro q hq
    simpa [verifyPassword, hashPassword] using fun h => hq h.symm
  · intro s₁ s₂ hs hc
    exact hs (congrArg PwHash.salt hc)

/-- Witness for C7: signing up a fresh email against the sample store. -/
theorem c7_witness :
    (signup sampleStore 2 8 ⟨some "Bob", some "b@x.com", some "pw2"⟩).1 =
      ⟨201, .msgUserId "Account created successfully!" 2⟩ ∧
    findOneByEmail (signup sampleStore 2 8
        ⟨some "Bob", some "b@x.com", some "pw2"⟩).2.users
      (some "b@x.com") = some ⟨2, "Bob", "b@x.com", hashPassword 8 "pw2"⟩ ∧
    verifyPassword "pw2" (hashPassword 8 "pw2") = true ∧
    (∀ q, q ≠ "pw2" → verifyPassword q (hashPassword 8 "pw2") = false) ∧
    (∀ s₁ s₂, s₁ ≠ s₂ → hashPassword s₁ "pw2" ≠ hashPassword s₂ "pw2") :=
  c7_signup_fresh_email sampleStore 2 8 "Bob" "b@x.com" "pw2" (by decide)

/-- C8 counterexample: a signup body lacking the required password field but
carrying an already-stored email gets 409, not 500 — the duplicate-email
check runs before anything touches the missing field. -/
theorem c8_counterexample :
    (signup sampleStore 2 8 ⟨some "Bob", some "a@x.com", none⟩).1 =
      ⟨409, .msg "User already exists with this email."⟩ ∧
    (signup sampleStore 2 8 ⟨some "Bob", some "a@x.com", none⟩).1.status ≠ 500 := by
  constructor
  · decide
  · decide

/-- C8 (amended): a signup body lacking a required field, whose email does
not collide with a stored account, responds 500 with the generic
internal-error message and leaves the store unchanged; no 400-class
validation response exists for missing fields. -/
theorem c8_missing_field_internal_error
    (st : Store) (nextId salt : Nat) (b : SignupBody)
    (hnc : findOneByEmail st.users b.email = none)
    (hmiss : b.accountName = none ∨ b.email = none ∨ b.password = none) :
    signup st nextId salt b = (⟨500, .msg "Internal server error."⟩, st) := by
  unfold signup
  rw [hnc]
  cases hpw : b.password with
  | none => rfl
  | some p =>
      have hne : b.accountName = none ∨ b.email = none := by
        rcases hmiss with h | h | h
        · exact Or.inl h
        · exact Or.inr h
        · rw [hpw] at h
          cases h
      rcases hne with h | h
      · simp [h]
      · cases han : b.accountName with
        | none => simp [han]
        | some nm => simp [han, h]

/-- Witness for C8 (amended): a fresh-email body missing its password is
answered 500 and the store is untouched. -/
theorem c8_witness :
    signup sampleStore 2 8 ⟨some "Bob", some "b@x.com", none⟩ =
      (⟨500, .msg "Internal server error."⟩, sampleStore) :=
  c8_missing_field_internal_error sampleStore 2 8
    ⟨some "Bob", some "b@x.com", none⟩ (by decide) (by decide)

/-- C9 counterexample: an empty Authorization header contains no space, yet
it is not treated as a missing token: the empty string is falsy in
JavaScript, so `authHeader && authHeader.split(' ')[1]` yields the empty
string itself, which passes the `== null` presence check and reaches
verification, failing with 403 rather than 401. -/
theorem c9_counterexample :
    authenticateToken rejectDecode 5 10 (some []) =
      .reject 403 "Invalid or expired token." ∧
    authenticateToken rejectDecode 5 10 (some []) ≠
      .reject 401 "Authentication token required." := by
  constructor
  · decide
  · decide

/-- C9 (amended): token extraction takes the substring after the first space
without checking the scheme — for every header of the form '<word> <jwt>'
the second part is verified regardless of the first word (so a valid token
behind a 'Basic' scheme is accepted) — and every NONEMPTY Authorization
header containing no space, including a bare valid token, is treated as a
missing token and yields 401; the empty header instead passes the presence
check and is rejected 403 when its empty token fails verification. -/
theorem c9_scheme_unchecked
    (decode : List Char → Jwt) (secret now : Nat) :
    (∀ w t p, ' ' ∉ w → ' ' ∉ t → jwtVerify secret now (decode t) = some p →
      authenticateToken decode secret now (some (w ++ ' ' :: t)) = .proceed p) ∧
    (∀ h, h ≠ [] → ' ' ∉ h →
      authenticateToken decode secret now (some h) =
        .reject 401 "Authentication token required.") ∧
    (jwtVerify secret now (decode []) = none →
      authenticateToken decode secret now (some []) =
        .reject 403 "Invalid or expired token.") := by
  refine ⟨?_, ?_, ?_⟩
  · intro w t p hw ht hv
    unfold authenticateToken
    simp [extractToken_word_token hw ht, hv]
  · intro h hne hsp
    unfold authenticateToken
    rw [extractToken_no_space hne hsp]
  · intro hv
    unfold authenticateToken
    simp [extractToken, hv]

/-- Witness for C9 (amended): a valid token behind the 'Basic' scheme is
accepted; a bare (space-free) token yields 401. -/
theorem c9_witness :
    authenticateToken sampleDecode 5 10
      (some ("Basic".toList ++ ' ' :: "tok".toList)) = .proceed samplePayload ∧
    authenticateToken sampleDecode 5 10 (some "tok".toList) =
      .reject 401 "Authentication token required." :=
  ⟨(c9_scheme_unchecked sampleDecode 5 10).1 "Basic".toList "tok".toList
      samplePayload (by decide) (by decide) (by decide),
   (c9_scheme_unchecked sampleDecode 5 10).2.1 "tok".toList
      (by decide) (by decide)⟩

/-- C10: GET /fetch-account-name never touches the persistent state (the
store after the call equals the store before, and the response does not
depend on the store at all), and with a valid token the response body's
accountName is exactly the accountName embedded in the token at issuance. -/
theorem c10_fetch_account_name_frame
    (st st' : Store) (decode : List Char → Jwt) (secret now : Nat)
    (header : Option (List Char)) :
    (fetchAccountName st decode secret now header).2 = st ∧
    (fetchAccountName st decode secret now header).1 =
      (fetchAccountName st' decode secret now header).1 ∧
    (∀ p, authenticateToken decode secret now header = .proceed p →
      (fetchAccountName st decode secret now header).1 =
        ⟨200, .nameOnly p.accountName⟩) ∧
    (∀ t uid em nm T, extractToken header = some t →
      decode t = jwtSign secret ⟨uid, em, nm⟩ T → now < T + 3600 →
      (fetchAccountName st decode secret now header).1 =
        ⟨200, .nameOnly nm⟩) := by
  refine ⟨?_, ?_, ?_, ?_⟩
  · unfold fetchAccountName
    cases authenticateToken decode secret now header <;> rfl
  · unfold fetchAccountName
    cases authenticateToken decode secret now header <;> rfl
  · intro p hauth
    unfold fetchAccountName
    rw [hauth]
  · intro t uid em nm T ht hdec hnow
    have hauth : authenticateToken decode secret now header =
        .proceed ⟨uid, em, nm⟩ := by
      unfold authenticateToken
      rw [ht]
      simp [hdec, jwtSign, jwtVerify, hnow]
    unfold fetchAccountName
    rw [hauth]

/-- Witness for C10 at the sample store and token, with an arbitrary second
store showing store-independence. -/
theorem c10_witness :
    (fetchAccountName sampleStore sampleDecode 5 10 sampleHeader).2 =
      sampleStore ∧
    (fetchAccountName sampleStore sampleDecode 5 10 sampleHeader).1 =
      (fetchAccountName ⟨[], []⟩ sampleDecode 5 10 sampleHeader).1 ∧
    (fetchAccountName sampleStore sampleDecode 5 10 sampleHeader).1 =
      ⟨200, .nameOnly "Alice"⟩ :=
  ⟨(c10_fetch_account_name_frame sampleStore ⟨[], []⟩ sampleDecode 5 10
      sampleHeader).1,
   (c10_fetch_account_name_frame sampleStore ⟨[], []⟩ sampleDecode 5 10
      sampleHeader).2.1,
   (c10_fetch_account_name_frame sampleStore ⟨[], []⟩ sampleDecode 5 10
      sampleHeader).2.2.2 "tok".toList 1 "a@x.com" "Alice" 0
      (by decide) (by decide) (by decide)⟩

end BookingSite
